import Mathlib

/-!
# Verification of the pewpi wallet's token / auth / event-sync subsystem

Shallow embedding, in Lean, of the magic-link authentication service
(`src/pewpi-shared/auth-service.js`, which contains two concatenated
variants of `AuthService`), the shared token service
(`src/unnamed/part_001`), the localStorage-mode token service of
`src/lib/token-service.js`, and the bounded audit log of
`src/pewpi-shared/integration-listener.js`.

Conventions of the embedding:
* JS `Date.now()` timestamps are `Nat` parameters threaded explicitly.
* Random sources (`crypto.getRandomValues`, `Math.random`) are modelled as
  explicit byte-list parameters; availability of the Web Crypto API is a
  `Bool` parameter.
* The dev-mode (`devMode = true`, the constructor's fixed setting) branch of
  `AuthService` is modelled; the in-memory `magicLinkStore` Map and its
  localStorage mirror are kept in lockstep by the source, so they are
  modelled as a single association list.
* Throwing is modelled with `Except` / `Option` result components; state is
  threaded so that error paths demonstrably leave it unchanged.
* JS objects with optional keys are structures with `Option` fields
  (`none` = key absent); JS `x || y` on numbers/strings is `jsOrInt` /
  `jsOrStr` below.
-/

namespace Pewpi

/-- JS `a || b` for numeric `a` held as an optional field: `undefined`,
`null` and `0` are falsy, any other number is truthy. -/
def jsOrInt (o : Option Int) (d : Int) : Int :=
  match o with
  | none => d
  | some x => if x = 0 then d else x

/-- JS `a || b` for string `a` held as an optional field: `undefined`,
`null` and the empty string are falsy. -/
def jsOrStr (o : Option String) (d : String) : String :=
  match o with
  | none => d
  | some s => if s = "" then d else s

/-! ## Email validation

`AuthService._isValidEmail` tests the regex `/^[^\s@]+@[^\s@]+\.[^\s@]+$/`.
`[^\s@]` is any character that is neither whitespace nor `@`. -/

/-- JS regex `\s` membership: the full ECMAScript WhiteSpace ∪
LineTerminator set — tab, LF, VT, FF, CR, space, NBSP, U+1680, the
U+2000–U+200A range, U+2028, U+2029, U+202F, U+205F, U+3000 and U+FEFF. -/
def jsSpace (c : Char) : Bool :=
  c == ' ' || c == '\t' || c == '\n' || c == '\r' ||
  c == Char.ofNat 11 || c == Char.ofNat 12 || c == Char.ofNat 160 ||
  c == Char.ofNat 0x1680 ||
  (decide (0x2000 ≤ c.toNat) && decide (c.toNat ≤ 0x200A)) ||
  c == Char.ofNat 0x2028 || c == Char.ofNat 0x2029 ||
  c == Char.ofNat 0x202F || c == Char.ofNat 0x205F ||
  c == Char.ofNat 0x3000 || c == Char.ofNat 0xFEFF

/-- The regex character class `[^\s@]`. -/
def emailAtomOk (c : Char) : Bool :=
  !jsSpace c && c != '@'

/-- `dotNotLast l = true` iff `l` contains a `'.'` at a position other than
its last: this is where the regex fragment `\.[^\s@]+$` can anchor. -/
def dotNotLast : List Char → Bool
  | [] => false
  | [_] => false
  | c :: rest => c == '.' || dotNotLast rest

/-- The domain side of the regex, `[^\s@]+\.[^\s@]+$`: all characters in
`[^\s@]`, and a dot that is neither the first nor the last character. -/
def validDomain (l : List Char) : Bool :=
  l.all emailAtomOk &&
    (match l with
     | [] => false
     | _ :: rest => dotNotLast rest)

/-- Split a character list at its first `'@'`, if any. -/
def splitAtAt : List Char → Option (List Char × List Char)
  | [] => none
  | c :: rest =>
    if c = '@' then some ([], rest)
    else (splitAtAt rest).map (fun p => (c :: p.1, p.2))

/-- `AuthService._isValidEmail`: the regex `/^[^\s@]+@[^\s@]+\.[^\s@]+$/`.
Since `[^\s@]` excludes `@`, the local part necessarily ends at the first
`@` and a second `@` makes the domain check fail, exactly as the regex
behaves. -/
def isValidEmail (s : String) : Bool :=
  match splitAtAt s.data with
  | none => false
  | some (loc, domain) =>
    !loc.isEmpty && loc.all emailAtomOk && validDomain domain

/-! ## Magic-link authentication (`AuthService`, dev mode) -/

/-- The CurrentUser record built by `verifyMagicLink`. -/
structure User where
  email : String
  authMethod : String
  lastLogin : Nat
deriving DecidableEq

/-- A stored magic link: `{email, expires, used}` keyed by its token. -/
structure MagicLinkData where
  email : String
  expires : Nat
  used : Bool
deriving DecidableEq

/-- A `window.dispatchEvent(new CustomEvent(name, {detail: {user, action}}))`
emission. -/
structure AuthEvent where
  name : String
  user : User
  action : String
deriving DecidableEq

/-- The error taxonomy of the auth service's thrown `Error`s. -/
inductive AuthError where
  | validation
  | notFound
  | alreadyUsed
  | expired
  | configuration
deriving DecidableEq

/-- State of the auth service: the magic-link store (Map plus its
localStorage mirror, kept in lockstep), the current user, and the events
emitted so far. -/
structure AuthState where
  magicLinks : List (String × MagicLinkData)
  currentUser : Option User
  events : List AuthEvent
deriving DecidableEq

/-- The empty auth state (fresh service, nothing persisted). -/
def emptyAuth : AuthState := ⟨[], none, []⟩

/-- `Map.set` / `allLinks[token] = linkData`: replace the binding if the key
is present, append it otherwise. -/
def setLink {β : Type} (m : List (String × β)) (k : String) (v : β) :
    List (String × β) :=
  match m with
  | [] => [(k, v)]
  | p :: rest => if p.1 = k then (k, v) :: rest else p :: setLink rest k v

/-- `AuthService.requestMagicLink(email)` (dev-mode branch). The generated
token is the `genToken` parameter (the output of `_generateToken`); the
dev-mode return value carries it back to the caller (embedded in the magic
link URL built from `window.location`, which we elide). -/
def requestMagicLink (now : Nat) (genToken : String) (email : String)
    (st : AuthState) : AuthState × Except AuthError String :=
  if email = "" || !isValidEmail email then
    (st, .error .validation)
  else
    let linkData : MagicLinkData := ⟨email, now + 15 * 60 * 1000, false⟩
    ({ st with magicLinks := setLink st.magicLinks genToken linkData },
     .ok genToken)

/-- `AuthService.verifyMagicLink(token)` (dev-mode branch): look up the
link; reject when missing, used, or strictly past `expires`
(`Date.now() > linkData.expires`); otherwise mark it used (persisted),
install the CurrentUser, emit `pewpi.login.changed` with `action: 'login'`,
and return the user. -/
def verifyMagicLink (now : Nat) (token : String) (st : AuthState) :
    AuthState × Except AuthError User :=
  match List.lookup token st.magicLinks with
  | none => (st, .error .notFound)
  | some linkData =>
    if linkData.used then (st, .error .alreadyUsed)
    else if linkData.expires < now then (st, .error .expired)
    else
      let user : User := ⟨linkData.email, "magic-link", now⟩
      ({ magicLinks := setLink st.magicLinks token { linkData with used := true },
         currentUser := some user,
         events := st.events ++ [⟨"pewpi.login.changed", user, "login"⟩] },
       .ok user)

/-! ## Token generation (`AuthService._generateToken`, both variants) -/

/-- `byte.toString(16).padStart(2, '0')` for a hex digit value. -/
def hexDigit (n : Nat) : Char :=
  if n < 10 then Char.ofNat (48 + n) else Char.ofNat (87 + n)

/-- One byte (a `Uint8Array` cell, hence reduced mod 256) to two lowercase
hex characters. -/
def byteToHex (b : Nat) : String :=
  String.mk [hexDigit (b % 256 / 16), hexDigit (b % 16)]

/-- `Array.from(array, byte => byte.toString(16).padStart(2, '0')).join('')`. -/
def encodeHex (bytes : List Nat) : String :=
  String.join (bytes.map byteToHex)

/-- The first variant of `_generateToken` (auth-service.js lines 212-223):
use `crypto.getRandomValues` when available, otherwise silently fill the
array from `Math.random`. `secureBytes` / `weakBytes` are the outputs of the
two sources. -/
def generateTokenV1 (cryptoAvailable : Bool) (secureBytes weakBytes : List Nat) :
    Except AuthError String :=
  if cryptoAvailable then .ok (encodeHex secureBytes)
  else .ok (encodeHex weakBytes)

/-- The second variant of `_generateToken` (auth-service.js lines 496-504):
throw `'Web Crypto API not available...'` when the secure source is
missing; never touch a weaker source. -/
def generateTokenV2 (cryptoAvailable : Bool) (secureBytes _weakBytes : List Nat) :
    Except AuthError String :=
  if !cryptoAvailable then .error .configuration
  else .ok (encodeHex secureBytes)

/-! ## Audit / sync log (`IntegrationListener.logSyncEvent`) -/

/-- One entry of the `pewpi_sync_log`: `{type, data, timestamp}`. -/
structure SyncEntry where
  type : String
  payload : String
  timestamp : Nat
deriving DecidableEq

/-- `logSyncEvent`: `unshift` the new entry, then truncate
(`syncLog.length = 100`) when the log exceeds 100 entries, and persist. -/
def logSyncEvent (e : SyncEntry) (syncLog : List SyncEntry) : List SyncEntry :=
  let l := e :: syncLog
  if 100 < l.length then l.take 100 else l

/-- The log obtained by emitting a sequence of events, oldest first, into an
initially empty store. -/
def runSyncLog (events : List SyncEntry) : List SyncEntry :=
  events.foldl (fun log e => logSyncEvent e log) []

/-! ## Shared TokenService (`src/unnamed/part_001`), localStorage mode -/

/-- A stored token record. -/
structure Token where
  token_hash : String
  value : Int
  balance : Int
  metadata : List (String × String)
  created_at : Nat
  updated_at : Nat
  id : Nat
deriving DecidableEq

/-- The `tokenData` argument of `createToken`; `none` = key absent. -/
structure TokenData where
  token_hash : Option String := none
  value : Option Int := none
  balance : Option Int := none
  metadata : Option (List (String × String)) := none

/-- Window events emitted by the token service. -/
inductive TSEvent where
  | created (t : Token)
  | updated (t : Token)
  | deleted (hash : String)
deriving DecidableEq

/-- Errors thrown by the token service. -/
inductive TSError where
  | tokenNotFound
deriving DecidableEq

/-- State of the shared token service: the persisted `pewpi_tokens` array
and the events emitted so far. -/
structure TSState where
  tokens : List Token
  events : List TSEvent
deriving DecidableEq

/-- The empty token store. -/
def emptyTS : TSState := ⟨[], []⟩

/-- `tokens.length > 0 ? Math.max(...tokens.map(t => t.id || 0)) + 1 : 1`. -/
def nextId (tokens : List Token) : Nat :=
  if 0 < tokens.length then (tokens.map (fun t => t.id)).foldl max 0 + 1 else 1

/-- `TokenService.createToken(tokenData)` (part_001, localStorage branch):
build the record with `||`-defaulted fields and both timestamps set to now,
assign the next id, push it, persist, emit `pewpi.token.created`, and
return it. `genHash` is the output of `_generateHash()`. -/
def createToken (now : Nat) (genHash : String) (d : TokenData) (st : TSState) :
    Token × TSState :=
  let t : Token :=
    { token_hash := jsOrStr d.token_hash genHash,
      value := jsOrInt d.value 0,
      balance := jsOrInt d.balance (jsOrInt d.value 0),
      metadata := d.metadata.getD [],
      created_at := now,
      updated_at := now,
      id := nextId st.tokens }
  (t, { tokens := st.tokens ++ [t], events := st.events ++ [.created t] })

/-- `TokenService.getAll()` (localStorage branch): the stored array. -/
def getAll (st : TSState) : List Token :=
  st.tokens

/-- `TokenService.getByHash`: `tokens.find(t => t.token_hash === tokenHash)`. -/
def getByHash (tokens : List Token) (hash : String) : Option Token :=
  tokens.find? (fun t => t.token_hash == hash)

/-- `TokenService.getTotalBalance()`:
`tokens.reduce((sum, token) => sum + (token.balance || 0), 0)`,
recomputed from `getAll()` on each call. -/
def getTotalBalance (st : TSState) : Int :=
  (getAll st).foldl (fun sum t => sum + jsOrInt (some t.balance) 0) 0

/-- The `updates` argument of `updateToken`; `none` = key absent from the
partial object. -/
structure TokenUpdates where
  token_hash : Option String := none
  value : Option Int := none
  balance : Option Int := none
  metadata : Option (List (String × String)) := none
  created_at : Option Nat := none
  updated_at : Option Nat := none
  id : Option Nat := none

/-- The spread `{...token, ...updates, updated_at: new Date().toISOString()}`:
keys present in `updates` win over `token`, and `updated_at` is then
overwritten with the current time regardless. -/
def mergeToken (t : Token) (u : TokenUpdates) (now : Nat) : Token :=
  { token_hash := u.token_hash.getD t.token_hash,
    value := u.value.getD t.value,
    balance := u.balance.getD t.balance,
    metadata := u.metadata.getD t.metadata,
    created_at := u.created_at.getD t.created_at,
    updated_at := now,
    id := u.id.getD t.id }

/-- `TokenService.updateToken(tokenHash, updates)` (part_001, localStorage
branch): throw `'Token not found'` when `getByHash` misses; otherwise merge,
replace the record at its index, persist, emit `pewpi.token.updated` with
the merged record, and return it. -/
def updateToken (now : Nat) (hash : String) (u : TokenUpdates) (st : TSState) :
    TSState × Except TSError Token :=
  match getByHash st.tokens hash with
  | none => (st, .error .tokenNotFound)
  | some t =>
    (⟨st.tokens.set (st.tokens.findIdx (fun tk => tk.token_hash == hash))
        (mergeToken t u now),
      st.events ++ [.updated (mergeToken t u now)]⟩,
     .ok (mergeToken t u now))

/-- Create a list of tokens in sequence; each element of `inputs` carries
the call's clock value, the generated hash, and the `tokenData` argument. -/
def createMany (inputs : List (Nat × String × TokenData)) (st : TSState) :
    TSState :=
  inputs.foldl (fun s p => (createToken p.1 p.2.1 p.2.2 s).2) st

/-- The balance `createToken` stores:
`tokenData.balance || tokenData.value || 0`. -/
def effBalance (d : TokenData) : Int :=
  jsOrInt d.balance (jsOrInt d.value 0)

/-! ## `src/lib/token-service.js`, localStorage mode -/

/-- A token record as created by the lib variant's `createToken`: note there
is no `updated_at` key on creation; the field below is `none` unless an
update ever merged one in. -/
structure LibToken where
  token_hash : String
  value : String
  created_at : Nat
  balance : Int
  source_count_requested : Int
  source_count_actual : Int
  snippets : List String
  links : List String
  metadata : List (String × String)
  id : Nat
  updated_at : Option Nat := none
deriving DecidableEq

/-- The `updates` argument of the lib variant's `updateToken`. -/
structure LibUpdates where
  token_hash : Option String := none
  value : Option String := none
  created_at : Option Nat := none
  balance : Option Int := none
  source_count_requested : Option Int := none
  source_count_actual : Option Int := none
  snippets : Option (List String) := none
  links : Option (List String) := none
  metadata : Option (List (String × String)) := none
  id : Option Nat := none
  updated_at : Option Nat := none

/-- Events emitted by the lib variant's localStorage update path. -/
inductive LibEvent where
  | updated (t : LibToken)
deriving DecidableEq

/-- The spread `{...tokens[index], ...updates}` of the lib variant: no
timestamp is touched beyond what `updates` itself carries. -/
def libMerge (t : LibToken) (u : LibUpdates) : LibToken :=
  { token_hash := u.token_hash.getD t.token_hash,
    value := u.value.getD t.value,
    created_at := u.created_at.getD t.created_at,
    balance := u.balance.getD t.balance,
    source_count_requested := u.source_count_requested.getD t.source_count_requested,
    source_count_actual := u.source_count_actual.getD t.source_count_actual,
    snippets := u.snippets.getD t.snippets,
    links := u.links.getD t.links,
    metadata := u.metadata.getD t.metadata,
    id := u.id.getD t.id,
    updated_at :=
      match u.updated_at with
      | some v => some v
      | none => t.updated_at }

/-- `TokenService._updateTokenLocalStorage(tokenHash, updates)` of
`src/lib/token-service.js`: `findIndex`; when absent return `null` (no
throw, no event, store untouched); when present merge, persist, emit
`pewpi.token.updated`, and return the merged record. -/
def libUpdateTokenLS (hash : String) (u : LibUpdates) (tokens : List LibToken) :
    List LibToken × Option LibToken × List LibEvent :=
  let idx := tokens.findIdx (fun t => t.token_hash == hash)
  match tokens[idx]? with
  | none => (tokens, none, [])
  | some t =>
    let merged := libMerge t u
    (tokens.set idx merged, some merged, [.updated merged])

/-! ## Event subscription (`on` / `off`), both AuthService variants

Function identity is what `removeEventListener` and `indexOf` compare, so
handlers are modelled as opaque ids (`Nat`), and the wrapper closures
created at subscribe time as `WinFn.wrapped c w` with a fresh `w` per
registration; the original callback, as a window listener argument, is
`WinFn.raw c`. The shared TokenService's `on`/`off` (part_001 lines
305-339) has exactly the first variant's shape. -/

/-- A function identity as seen by `addEventListener` /
`removeEventListener`. -/
inductive WinFn where
  | raw (c : Nat)
  | wrapped (c : Nat) (w : Nat)
deriving DecidableEq

/-- First-variant listener state: the per-event callback array, and the
window's registration list for that event name. `fresh` numbers wrapper
closures. -/
structure ListenerStateV1 where
  cbs : List Nat
  window : List WinFn
  fresh : Nat
deriving DecidableEq

/-- First-variant `on` (auth-service.js lines 245-260): push the callback,
and register the anonymous wrapper `(e) => callback(e.detail)` on the
window. -/
def onV1 (c : Nat) (s : ListenerStateV1) : ListenerStateV1 :=
  ⟨s.cbs ++ [c], s.window ++ [.wrapped c s.fresh], s.fresh + 1⟩

/-- First-variant `off` (auth-service.js lines 265-279): splice the callback
out of the array, then `window.removeEventListener(eventName, callback)` —
with the original callback, not the wrapper that was registered. -/
def offV1 (c : Nat) (s : ListenerStateV1) : ListenerStateV1 :=
  ⟨s.cbs.erase c, s.window.erase (.raw c), s.fresh⟩

/-- Second-variant listener state: entries store `{callback, wrapper}`
pairs. -/
structure ListenerStateV2 where
  entries : List (Nat × Nat)
  window : List WinFn
  fresh : Nat
deriving DecidableEq

/-- Second-variant `on` (auth-service.js lines 526-543): push
`{callback, wrapper}` and register the wrapper on the window. -/
def onV2 (c : Nat) (s : ListenerStateV2) : ListenerStateV2 :=
  ⟨s.entries ++ [(c, s.fresh)], s.window ++ [.wrapped c s.fresh], s.fresh + 1⟩

/-- `findIndex(item => item.callback === callback)` followed by `splice`:
remove the first entry whose callback matches, returning its wrapper and
the remaining list. -/
def removeFirst (c : Nat) : List (Nat × Nat) → Option (Nat × List (Nat × Nat))
  | [] => none
  | e :: rest =>
    if e.1 = c then some (e.2, rest)
    else
      match removeFirst c rest with
      | none => none
      | some (w, rest') => some (w, e :: rest')

/-- Second-variant `off` (auth-service.js lines 548-564): when a matching
entry exists, splice it out and `removeEventListener` its stored wrapper;
otherwise do nothing. -/
def offV2 (c : Nat) (s : ListenerStateV2) : ListenerStateV2 :=
  match removeFirst c s.entries with
  | none => s
  | some (w, entries') => ⟨entries', s.window.erase (.wrapped c w), s.fresh⟩

/-- Wrapper ids already present on the window are below the freshness
counter — true of every state reachable from a fresh service. -/
def wfV2 (s : ListenerStateV2) : Bool :=
  s.window.all (fun f =>
    match f with
    | .raw _ => true
    | .wrapped _ w => decide (w < s.fresh))

/-! ## Helper lemmas -/

/-- Looking up a key right after `setLink`-ing it finds the new value. -/
theorem lookup_setLink_self {β : Type} (m : List (String × β)) (k : String)
    (v : β) : List.lookup k (setLink m k v) = some v := by
  induction m with
  | nil => simp [setLink, List.lookup]
  | cons p rest ih =>
    by_cases h : p.1 = k
    · simp [setLink, h, List.lookup]
    · simp only [setLink, if_neg h]
      have hne : (k == p.1) = false := by
        simp [beq_iff_eq]
        exact fun hk => h hk.symm
      simp [List.lookup, hne, ih]

/-- `verifyMagicLink` on a token with no matching link. -/
theorem verify_notFound (now : Nat) (tok : String) (st : AuthState)
    (h : List.lookup tok st.magicLinks = none) :
    verifyMagicLink now tok st = (st, .error .notFound) := by
  unfold verifyMagicLink
  rw [h]

/-- `verifyMagicLink` on an already-used link. -/
theorem verify_alreadyUsed (now : Nat) (tok : String) (st : AuthState)
    (ld : MagicLinkData) (h : List.lookup tok st.magicLinks = some ld)
    (hused : ld.used = true) :
    verifyMagicLink now tok st = (st, .error .alreadyUsed) := by
  unfold verifyMagicLink
  rw [h]
  simp [hused]

/-- `verifyMagicLink` on an unused link strictly past its expiry. -/
theorem verify_expired (now : Nat) (tok : String) (st : AuthState)
    (ld : MagicLinkData) (h : List.lookup tok st.magicLinks = some ld)
    (hused : ld.used = false) (hexp : ld.expires < now) :
    verifyMagicLink now tok st = (st, .error .expired) := by
  unfold verifyMagicLink
  rw [h]
  simp [hused, hexp]

/-- `verifyMagicLink` on an unused link at or before its expiry. -/
theorem verify_ok (now : Nat) (tok : String) (st : AuthState)
    (ld : MagicLinkData) (h : List.lookup tok st.magicLinks = some ld)
    (hused : ld.used = false) (hexp : now ≤ ld.expires) :
    verifyMagicLink now tok st =
      ({ magicLinks := setLink st.magicLinks tok { ld with used := true },
         currentUser := some ⟨ld.email, "magic-link", now⟩,
         events := st.events ++
           [⟨"pewpi.login.changed", ⟨ld.email, "magic-link", now⟩, "login"⟩] },
       .ok ⟨ld.email, "magic-link", now⟩) := by
  unfold verifyMagicLink
  rw [h]
  simp [hused, Nat.not_lt.mpr hexp]

/-- `requestMagicLink` on a valid email stores a fresh unused link. -/
theorem request_ok (now : Nat) (gen email : String) (st : AuthState)
    (hne : email ≠ "") (hv : isValidEmail email = true) :
    requestMagicLink now gen email st =
      ({ st with magicLinks :=
          setLink st.magicLinks gen ⟨email, now + 15 * 60 * 1000, false⟩ },
       .ok gen) := by
  unfold requestMagicLink
  simp [hne, hv]

/-- `jsOrInt (some b) 0` is just `b`: `b || 0` on a number. -/
theorem jsOrInt_some_zero (b : Int) : jsOrInt (some b) 0 = b := by
  by_cases h : b = 0 <;> simp [jsOrInt, h]

/-- Taking `n` of an append where the tail was already truncated to `n`. -/
theorem take_append_take {α : Type} (n : Nat) (A B : List α) :
    (A ++ B.take n).take n = (A ++ B).take n := by
  rw [List.take_append_eq_append_take, List.take_append_eq_append_take,
    List.take_take, Nat.min_def]
  split
  · rfl
  · omega

/-- `logSyncEvent` is exactly: prepend, then keep the most recent 100. -/
theorem logSyncEvent_eq_take (e : SyncEntry) (log : List SyncEntry) :
    logSyncEvent e log = (e :: log).take 100 := by
  unfold logSyncEvent
  by_cases h : 100 < (e :: log).length
  · rw [if_pos h]
  · rw [if_neg h, List.take_of_length_le (Nat.le_of_not_lt h)]

/-- Folding `logSyncEvent` over an event sequence from a log of at most 100
entries keeps the most recent 100, newest first. -/
theorem foldl_logSyncEvent (events : List SyncEntry) :
    ∀ L : List SyncEntry, L.length ≤ 100 →
      events.foldl (fun log e => logSyncEvent e log) L =
        (events.reverse ++ L).take 100 := by
  induction events with
  | nil =>
    intro L hL
    simp [List.take_of_length_le hL]
  | cons e es ih =>
    intro L hL
    rw [List.foldl_cons, logSyncEvent_eq_take,
      ih ((e :: L).take 100) (by simp [List.length_take]),
      take_append_take, List.reverse_cons, List.append_assoc]
    rfl

/-! ## Claim theorems -/

/-- Claim C2 (counterexample): the first `_generateToken` variant
(auth-service.js lines 212-223), run with the Web Crypto API unavailable
and with `Math.random` producing the byte 255, returns the token `"ff"`
built from the weak source instead of failing with a configuration error —
a silent fallback, which the claim says never happens. -/
theorem c2_counterexample :
    generateTokenV1 false [171] [255] = Except.ok "ff" := rfl

/-- Claim C2 (amended): the second `_generateToken` variant (lines 496-504)
uses the secure source when available and fails loudly with a configuration
error when it is absent, never touching a weaker source; the first variant
(lines 212-223), by contrast, silently falls back to `Math.random` bytes
when the secure source is absent. -/
theorem c2_generate_token (secureBytes weakBytes : List Nat) :
    generateTokenV2 true secureBytes weakBytes = .ok (encodeHex secureBytes) ∧
    generateTokenV2 false secureBytes weakBytes = .error .configuration ∧
    generateTokenV1 true secureBytes weakBytes = .ok (encodeHex secureBytes) ∧
    generateTokenV1 false secureBytes weakBytes = .ok (encodeHex weakBytes) :=
  ⟨rfl, rfl, rfl, rfl⟩

/-- Claim C3: the audit/sync log never exceeds 100 entries however many
events are emitted, and it is ordered newest-first: each `logSyncEvent`
prepends the new entry and keeps only the 100 most recent, so after any
event sequence the log is exactly the last 100 events, newest first. -/
theorem c3_sync_log_bounded (events : List SyncEntry) :
    runSyncLog events = events.reverse.take 100 ∧
    (runSyncLog events).length ≤ 100 ∧
    (∀ (e : SyncEntry) (log : List SyncEntry),
      logSyncEvent e log = (e :: log).take 100 ∧
      (logSyncEvent e log).head? = some e ∧
      (logSyncEvent e log).length ≤ 100) := by
  refine ⟨?_, ?_, ?_⟩
  · unfold runSyncLog
    rw [foldl_logSyncEvent events [] (by simp), List.append_nil]
  · unfold runSyncLog
    rw [foldl_logSyncEvent events [] (by simp)]
    simp [List.length_take]
  · intro e log
    refine ⟨logSyncEvent_eq_take e log, ?_, ?_⟩
    · rw [logSyncEvent_eq_take, show (100 : Nat) = 99 + 1 from rfl,
        List.take_succ_cons]
      rfl
    · rw [logSyncEvent_eq_take]
      simp [List.length_take]

/-- Claim C4: a magic link whose TTL has elapsed (`now` strictly past
`expires`, `used == false`) fails verification with the expired error, and
the service state — in particular the stored link — is unchanged: the
failed attempt does not set `used = true`. -/
theorem c4_expired_no_side_effect (now : Nat) (tok : String) (st : AuthState)
    (ld : MagicLinkData) (hfind : List.lookup tok st.magicLinks = some ld)
    (hused : ld.used = false) (hexp : ld.expires < now) :
    verifyMagicLink now tok st = (st, .error .expired) :=
  verify_expired now tok st ld hfind hused hexp

/-- Witness for C4: a concrete link expired at 10, verified at 11. -/
theorem c4_witness :
    verifyMagicLink 11 "t"
        ⟨[("t", ⟨"a@b.com", 10, false⟩)], none, []⟩ =
      (⟨[("t", ⟨"a@b.com", 10, false⟩)], none, []⟩, .error .expired) :=
  c4_expired_no_side_effect 11 "t" _ ⟨"a@b.com", 10, false⟩ rfl rfl
    (by decide)

/-- Claim C9: requesting a magic link for the empty email or any email the
conservative shape check rejects fails with a validation error, and no
magic-link record is persisted: the state is returned untouched. -/
theorem c9_invalid_email (now : Nat) (gen email : String) (st : AuthState)
    (h : email = "" ∨ isValidEmail email = false) :
    requestMagicLink now gen email st = (st, .error .validation) := by
  unfold requestMagicLink
  rcases h with h | h
  · simp [h]
  · simp [h]

/-- Witness for C9: the string `"invalid"` (no `@`) is rejected and the
empty state stays empty. -/
theorem c9_witness :
    isValidEmail "invalid" = false ∧
    requestMagicLink 0 "g" "invalid" emptyAuth =
      (emptyAuth, .error .validation) :=
  ⟨by decide, c9_invalid_email 0 "g" "invalid" emptyAuth (Or.inr (by decide))⟩

/-- Claim C10: `createToken` defaults the stored balance with
`tokenData.balance || tokenData.value || 0`: whenever the balance field is
absent or 0 (falsy), the stored balance is the value field defaulted by the
same rule — so an explicit balance of 0 with a nonzero value yields a token
whose balance equals the value, not 0. -/
theorem c10_balance_default (now : Nat) (genHash : String) (d : TokenData)
    (st : TSState) :
    (createToken now genHash d st).1.balance =
        jsOrInt d.balance (jsOrInt d.value 0) ∧
    ((d.balance = none ∨ d.balance = some 0) →
      (createToken now genHash d st).1.balance = jsOrInt d.value 0) := by
  constructor
  · rfl
  · rintro (h | h) <;> simp [createToken, jsOrInt, h]

/-- Witness for C10: balance explicitly 0, value 5 — the stored balance is
5, not 0. -/
theorem c10_witness :
    ((some (0 : Int) = none ∨ some (0 : Int) = some 0) ∧
      (createToken 0 "g" ⟨none, some 5, some 0, none⟩ emptyTS).1.balance = 5) :=
  ⟨Or.inr rfl,
    (c10_balance_default 0 "g" ⟨none, some 5, some 0, none⟩ emptyTS).2
      (Or.inr rfl)⟩

/-- Claim C1 (counterexample): a link whose `expires` is exactly 100,
verified at `now = 100`, succeeds — the code only expires a link when
`now` is strictly greater than `expires`, while the claim demands failure
with the expired error already at `now >= expiresAt`. -/
theorem c1_counterexample :
    verifyMagicLink 100 "t" ⟨[("t", ⟨"a@b.com", 100, false⟩)], none, []⟩ =
      (⟨[("t", ⟨"a@b.com", 100, true⟩)],
        some ⟨"a@b.com", "magic-link", 100⟩,
        [⟨"pewpi.login.changed", ⟨"a@b.com", "magic-link", 100⟩, "login"⟩]⟩,
       .ok ⟨"a@b.com", "magic-link", 100⟩) := rfl

/-- Claim C1 (amended): `verify(t)` fails with the not-found error if no
link matches `t`; with the already-used error if the matching link has
`used == true`; with the expired error if `now` is strictly past
`expiresAt` (at `now == expiresAt` the link still verifies); and otherwise
sets `used = true` on the persisted link, sets the CurrentUser record,
emits a login-changed event with action `"login"`, and returns the user.
Consequently, for any valid email, issue then verify with the returned
token succeeds exactly once — any second verify with the same token fails
with the already-used error. -/
theorem c1_verify_magic_link :
    (∀ (now : Nat) (tok : String) (st : AuthState),
      (List.lookup tok st.magicLinks = none →
        verifyMagicLink now tok st = (st, .error .notFound)) ∧
      (∀ ld, List.lookup tok st.magicLinks = some ld →
        (ld.used = true →
          verifyMagicLink now tok st = (st, .error .alreadyUsed)) ∧
        (ld.used = false → ld.expires < now →
          verifyMagicLink now tok st = (st, .error .expired)) ∧
        (ld.used = false → now ≤ ld.expires →
          ∃ st',
            verifyMagicLink now tok st =
              (st', .ok ⟨ld.email, "magic-link", now⟩) ∧
            List.lookup tok st'.magicLinks = some { ld with used := true } ∧
            st'.currentUser = some ⟨ld.email, "magic-link", now⟩ ∧
            st'.events = st.events ++
              [⟨"pewpi.login.changed", ⟨ld.email, "magic-link", now⟩,
                "login"⟩]))) ∧
    (∀ (t₀ t₁ : Nat) (gen email : String) (st₀ : AuthState),
      email ≠ "" → isValidEmail email = true → t₁ ≤ t₀ + 15 * 60 * 1000 →
      ∃ st₁ st₂,
        requestMagicLink t₀ gen email st₀ = (st₁, .ok gen) ∧
        verifyMagicLink t₁ gen st₁ = (st₂, .ok ⟨email, "magic-link", t₁⟩) ∧
        st₂.currentUser = some ⟨email, "magic-link", t₁⟩ ∧
        (∀ t₂, verifyMagicLink t₂ gen st₂ = (st₂, .error .alreadyUsed))) := by
  constructor
  · intro now tok st
    refine ⟨verify_notFound now tok st, ?_⟩
    intro ld hld
    refine ⟨verify_alreadyUsed now tok st ld hld,
      verify_expired now tok st ld hld, ?_⟩
    intro hused hexp
    refine ⟨_, verify_ok now tok st ld hld hused hexp, ?_, rfl, rfl⟩
    exact lookup_setLink_self st.magicLinks tok { ld with used := true }
  · intro t₀ t₁ gen email st₀ hne hv ht
    have h1 := request_ok t₀ gen email st₀ hne hv
    have h2 := verify_ok t₁ gen
      (AuthState.mk
        (setLink st₀.magicLinks gen ⟨email, t₀ + 15 * 60 * 1000, false⟩)
        st₀.currentUser st₀.events)
      ⟨email, t₀ + 15 * 60 * 1000, false⟩
      (lookup_setLink_self st₀.magicLinks gen _) rfl ht
    refine ⟨_, _, h1, h2, rfl, ?_⟩
    intro t₂
    exact verify_alreadyUsed t₂ gen _ ⟨email, t₀ + 15 * 60 * 1000, true⟩
      (lookup_setLink_self _ gen _) rfl

/-- Witness for C1: issue for `"a@b.com"` at time 0 with token `"tok"`,
verify at time 1 — the second verify fails with the already-used error. -/
theorem c1_witness :
    ("a@b.com" : String) ≠ "" ∧ isValidEmail "a@b.com" = true ∧
    (1 : Nat) ≤ 0 + 15 * 60 * 1000 ∧
    ∃ st₁ st₂,
      requestMagicLink 0 "tok" "a@b.com" emptyAuth = (st₁, .ok "tok") ∧
      verifyMagicLink 1 "tok" st₁ =
        (st₂, .ok ⟨"a@b.com", "magic-link", 1⟩) ∧
      st₂.currentUser = some ⟨"a@b.com", "magic-link", 1⟩ ∧
      (∀ t₂, verifyMagicLink t₂ "tok" st₂ = (st₂, .error .alreadyUsed)) :=
  ⟨by decide, by decide, by decide,
    c1_verify_magic_link.2 0 1 "tok" "a@b.com" emptyAuth (by decide)
      (by decide) (by decide)⟩

/-- The tokens created by `createMany`, projected to their balances: the
prior store's balances followed by the `||`-defaulted balance of each
input, in creation order. -/
theorem createMany_balances (inputs : List (Nat × String × TokenData)) :
    ∀ st : TSState,
      ((createMany inputs st).tokens).map (fun t => t.balance) =
        st.tokens.map (fun t => t.balance) ++
          inputs.map (fun p => effBalance p.2.2) := by
  induction inputs with
  | nil => intro st; simp [createMany]
  | cons p ps ih =>
    intro st
    have step : createMany (p :: ps) st =
        createMany ps ((createToken p.1 p.2.1 p.2.2 st).2) := by
      simp [createMany]
    rw [step, ih]
    simp [createToken, effBalance]

/-- `foldl` of balance accumulation is the sum of the balances. -/
theorem foldl_add_balance (l : List Token) :
    ∀ init : Int,
      l.foldl (fun sum t => sum + jsOrInt (some t.balance) 0) init =
        init + (l.map (fun t => t.balance)).sum := by
  induction l with
  | nil => intro init; simp
  | cons a l ih =>
    intro init
    rw [List.foldl_cons, ih, jsOrInt_some_zero]
    simp [add_assoc]

/-- Claim C5: starting from the empty store, creating N tokens yields a
store of N tokens whose balances are, in order, the `||`-defaulted
balances of the inputs; `getTotalBalance` equals their sum; and in general
`getTotalBalance` is the sum of the balance fields of all stored tokens,
recomputed from the store on each call. -/
theorem c5_total_balance (inputs : List (Nat × String × TokenData)) :
    (getAll (createMany inputs emptyTS)).length = inputs.length ∧
    (getAll (createMany inputs emptyTS)).map (fun t => t.balance) =
      inputs.map (fun p => effBalance p.2.2) ∧
    getTotalBalance (createMany inputs emptyTS) =
      (inputs.map (fun p => effBalance p.2.2)).sum ∧
    (∀ st : TSState,
      getTotalBalance st = ((getAll st).map (fun t => t.balance)).sum) := by
  have hbal : ((createMany inputs emptyTS).tokens).map (fun t => t.balance) =
      inputs.map (fun p => effBalance p.2.2) := by
    simpa [emptyTS] using createMany_balances inputs emptyTS
  have hgen : ∀ st : TSState,
      getTotalBalance st = ((getAll st).map (fun t => t.balance)).sum := by
    intro st
    unfold getTotalBalance
    rw [foldl_add_balance]
    simp
  refine ⟨?_, ?_, ?_, hgen⟩
  · have := congrArg List.length hbal
    simpa [getAll] using this
  · simpa [getAll] using hbal
  · rw [hgen]
    have hga : getAll (createMany inputs emptyTS) =
        (createMany inputs emptyTS).tokens := rfl
    rw [hga, hbal]

/-- `find?` succeeding means the element sits at index `findIdx` of the
same predicate. -/
theorem getElem?_findIdx_of_find? {α : Type} (p : α → Bool) :
    ∀ (l : List α) (t : α), l.find? p = some t → l[l.findIdx p]? = some t := by
  intro l
  induction l with
  | nil => intro t h; simp [List.find?] at h
  | cons a l ih =>
    intro t h
    by_cases hp : p a
    · rw [List.find?_cons_of_pos _ hp] at h
      cases h
      simp [List.findIdx_cons, hp]
    · rw [List.find?_cons_of_neg _ hp] at h
      simp only [List.findIdx_cons, hp, cond_false]
      simpa using ih t h

/-- Claim C6 (counterexample): in `src/lib/token-service.js`, updating a
token hash that is absent from the store returns `null` — no
not-found error is raised, no event is emitted, and the store is returned
unchanged — whereas the claim requires failure with `NotFoundError`. -/
theorem c6_counterexample :
    libUpdateTokenLS "missing" { balance := some 5 } [] = ([], none, []) := rfl

/-- Claim C6 (amended): in the shared TokenService (src/unnamed/part_001),
`updateToken(key, partial)` fails with the token-not-found error when no
record with that key exists, leaving the store unchanged; when the record
exists it merges the partial over the existing record, sets `updated_at` to
the current time, persists the result at the record's index, and emits an
"updated" event carrying the merged record. (The `src/lib/token-service.js`
variant instead returns `null` on an absent key without error.) -/
theorem c6_update_semantics (now : Nat) (hash : String) (u : TokenUpdates)
    (st : TSState) :
    (getByHash st.tokens hash = none →
      updateToken now hash u st = (st, .error .tokenNotFound)) ∧
    (∀ t, getByHash st.tokens hash = some t →
      ∃ i, st.tokens[i]? = some t ∧
        updateToken now hash u st =
          (⟨st.tokens.set i (mergeToken t u now),
            st.events ++ [.updated (mergeToken t u now)]⟩,
           .ok (mergeToken t u now)) ∧
        (mergeToken t u now).updated_at = now ∧
        (mergeToken t u now).balance = u.balance.getD t.balance) := by
  constructor
  · intro h
    simp [updateToken, h]
  · intro t h
    have h' : st.tokens.find? (fun tk => tk.token_hash == hash) = some t := h
    refine ⟨st.tokens.findIdx (fun tk => tk.token_hash == hash),
      getElem?_findIdx_of_find? _ st.tokens t h', ?_, rfl, rfl⟩
    simp [updateToken, h]

/-- Witness for C6: a one-token store, updating its balance to 7 at time 5
merges, bumps `updated_at` to 5, persists at index 0, and emits the
"updated" event. -/
theorem c6_witness :
    getByHash [Token.mk "h1" 1 2 [] 0 0 1] "h1" = some (Token.mk "h1" 1 2 [] 0 0 1) ∧
    ∃ i, [Token.mk "h1" 1 2 [] 0 0 1][i]? = some (Token.mk "h1" 1 2 [] 0 0 1) ∧
      updateToken 5 "h1" { balance := some 7 } ⟨[Token.mk "h1" 1 2 [] 0 0 1], []⟩ =
        (⟨[Token.mk "h1" 1 2 [] 0 0 1].set i
            (mergeToken (Token.mk "h1" 1 2 [] 0 0 1) { balance := some 7 } 5),
          [] ++ [.updated (mergeToken (Token.mk "h1" 1 2 [] 0 0 1) { balance := some 7 } 5)]⟩,
         .ok (mergeToken (Token.mk "h1" 1 2 [] 0 0 1) { balance := some 7 } 5)) ∧
      (mergeToken (Token.mk "h1" 1 2 [] 0 0 1) { balance := some 7 } 5).updated_at = 5 ∧
      (mergeToken (Token.mk "h1" 1 2 [] 0 0 1) { balance := some 7 } 5).balance =
        (some (7 : Int)).getD (Token.mk "h1" 1 2 [] 0 0 1).balance :=
  ⟨rfl,
    (c6_update_semantics 5 "h1" { balance := some 7 }
      ⟨[Token.mk "h1" 1 2 [] 0 0 1], []⟩).2 (Token.mk "h1" 1 2 [] 0 0 1) rfl⟩

/-- Claim C7 (counterexample): in `src/lib/token-service.js`, updating only
the balance of a stored token leaves the record otherwise byte-identical —
in particular `updated_at`, absent at creation, stays absent, so it is not
strictly greater after the update as the claim requires. -/
theorem c7_counterexample :
    libUpdateTokenLS "h1" { balance := some 7 }
        [LibToken.mk "h1" "v" 3 2 0 0 [] [] [] 1 none] =
      ([LibToken.mk "h1" "v" 3 7 0 0 [] [] [] 1 none],
       some (LibToken.mk "h1" "v" 3 7 0 0 [] [] [] 1 none),
       [.updated (LibToken.mk "h1" "v" 3 7 0 0 [] [] [] 1 none)]) := rfl

/-- Claim C7 (amended): in the shared TokenService (src/unnamed/part_001),
updating only a token's balance leaves `token_hash`, `created_at`, `value`,
`metadata` and `id` unchanged, stores the new balance, and sets
`updated_at` to the current time — strictly greater than its previous value
whenever the clock has advanced past it. (The `src/lib/token-service.js`
localStorage update merges without touching `updated_at` at all.) -/
theorem c7_update_frame (now : Nat) (hash : String) (b : Int) (st : TSState)
    (t : Token) (hfind : getByHash st.tokens hash = some t)
    (hlt : t.updated_at < now) :
    ∃ st' t', updateToken now hash { balance := some b } st = (st', .ok t') ∧
      t'.token_hash = t.token_hash ∧ t'.created_at = t.created_at ∧
      t'.value = t.value ∧ t'.metadata = t.metadata ∧ t'.id = t.id ∧
      t'.balance = b ∧ t.updated_at < t'.updated_at := by
  refine ⟨⟨st.tokens.set (st.tokens.findIdx (fun tk => tk.token_hash == hash))
      (mergeToken t { balance := some b } now),
    st.events ++ [.updated (mergeToken t { balance := some b } now)]⟩,
    mergeToken t { balance := some b } now, ?_, rfl, rfl, rfl, rfl,
    rfl, rfl, ?_⟩
  · simp [updateToken, hfind]
  · exact hlt

/-- Witness for C7: a token last updated at 3, its balance updated at
time 9 — all frame fields preserved and `updated_at` strictly increased. -/
theorem c7_witness :
    getByHash [Token.mk "h2" 1 2 [] 3 3 1] "h2" = some (Token.mk "h2" 1 2 [] 3 3 1) ∧
    (Token.mk "h2" 1 2 [] 3 3 1).updated_at < 9 ∧
    ∃ st' t',
      updateToken 9 "h2" { balance := some 4 } ⟨[Token.mk "h2" 1 2 [] 3 3 1], []⟩ =
        (st', .ok t') ∧
      t'.token_hash = (Token.mk "h2" 1 2 [] 3 3 1).token_hash ∧
      t'.created_at = (Token.mk "h2" 1 2 [] 3 3 1).created_at ∧
      t'.value = (Token.mk "h2" 1 2 [] 3 3 1).value ∧
      t'.metadata = (Token.mk "h2" 1 2 [] 3 3 1).metadata ∧
      t'.id = (Token.mk "h2" 1 2 [] 3 3 1).id ∧
      t'.balance = 4 ∧
      (Token.mk "h2" 1 2 [] 3 3 1).updated_at < t'.updated_at :=
  ⟨rfl, by decide,
    c7_update_frame 9 "h2" 4 ⟨[Token.mk "h2" 1 2 [] 3 3 1], []⟩
      (Token.mk "h2" 1 2 [] 3 3 1) rfl (by decide)⟩

/-- Removing the first binding for wrapper ids: when no entry of `l` has
callback `c`, the first match in `l ++ (c, w) :: rest` is `(c, w)`. -/
theorem removeFirst_append (c : Nat) :
    ∀ l : List (Nat × Nat), (∀ e ∈ l, e.1 ≠ c) →
      ∀ (w : Nat) (rest : List (Nat × Nat)),
        removeFirst c (l ++ (c, w) :: rest) = some (w, l ++ rest) := by
  intro l
  induction l with
  | nil => intro _ w rest; simp [removeFirst]
  | cons e l ih =>
    intro h w rest
    have he : e.1 ≠ c := h e (by simp)
    have hrec := ih (fun x hx => h x (by simp [hx])) w rest
    simp [removeFirst, he, hrec]

/-- A wrapper id at or above the freshness counter is not yet registered on
the window. -/
theorem wrapped_not_mem (s : ListenerStateV2) (hwf : wfV2 s = true)
    (c w : Nat) (hw : s.fresh ≤ w) : WinFn.wrapped c w ∉ s.window := by
  intro hmem
  have h := List.all_eq_true.mp hwf _ hmem
  simp at h
  omega

/-- Claim C8 (counterexample): in the first AuthService variant (and the
shared TokenService, whose `on`/`off` are identical in shape), subscribing
a handler and then unsubscribing it removes it from the internal callback
array but leaves the page-wide wrapper registration on the window:
`removeEventListener` is passed the original callback while
`addEventListener` was given an anonymous wrapper. The claim requires the
page-wide registration to be removed as well. -/
theorem c8_counterexample :
    offV1 0 (onV1 0 ⟨[], [], 0⟩) = ⟨[], [.wrapped 0 0], 1⟩ ∧
    (offV1 0 (onV1 0 ⟨[], [], 0⟩)).window ≠ [] := by
  exact ⟨rfl, by decide⟩

/-- Claim C8 (amended): in the second AuthService variant (lines 526-564),
unsubscribing removes exactly the first entry whose callback matches (by
identity) together with the page-wide wrapper registration created for it
at subscribe time, and a handler registered twice is removable
independently, one registration at a time: after two `on`s and one `off`
exactly one registration (with its window wrapper) remains, and after a
second `off` both the entry list and the window are back to their original
contents. -/
theorem c8_unsubscribe (s : ListenerStateV2) (c : Nat)
    (hwf : wfV2 s = true)
    (hnew : s.entries.all (fun e => e.1 != c) = true) :
    (onV2 c (onV2 c s)).entries =
        s.entries ++ [(c, s.fresh), (c, s.fresh + 1)] ∧
    (onV2 c (onV2 c s)).window =
        s.window ++ [.wrapped c s.fresh, .wrapped c (s.fresh + 1)] ∧
    (offV2 c (onV2 c (onV2 c s))).entries = s.entries ++ [(c, s.fresh + 1)] ∧
    (offV2 c (onV2 c (onV2 c s))).window =
        s.window ++ [.wrapped c (s.fresh + 1)] ∧
    (offV2 c (offV2 c (onV2 c (onV2 c s)))).entries = s.entries ∧
    (offV2 c (offV2 c (onV2 c (onV2 c s)))).window = s.window := by
  have hne : ∀ e ∈ s.entries, e.1 ≠ c := by
    intro e he
    have := List.all_eq_true.mp hnew e he
    simpa using this
  have hm0 : WinFn.wrapped c s.fresh ∉ s.window :=
    wrapped_not_mem s hwf c s.fresh (Nat.le_refl _)
  have hm1 : WinFn.wrapped c (s.fresh + 1) ∉ s.window :=
    wrapped_not_mem s hwf c (s.fresh + 1) (Nat.le_succ _)
  have hr1 := removeFirst_append c s.entries hne s.fresh [(c, s.fresh + 1)]
  have hr2 := removeFirst_append c s.entries hne (s.fresh + 1) []
  have hS : onV2 c (onV2 c s) =
      ⟨s.entries ++ [(c, s.fresh), (c, s.fresh + 1)],
       s.window ++ [.wrapped c s.fresh, .wrapped c (s.fresh + 1)],
       s.fresh + 1 + 1⟩ := by
    simp [onV2]
  have h3 : offV2 c (onV2 c (onV2 c s)) =
      ⟨s.entries ++ [(c, s.fresh + 1)],
       s.window ++ [.wrapped c (s.fresh + 1)],
       s.fresh + 1 + 1⟩ := by
    rw [hS]
    simp only [offV2, hr1]
    rw [List.erase_append_right _ hm0]
    simp [List.erase_cons_head]
  have h4 : offV2 c (offV2 c (onV2 c (onV2 c s))) =
      ⟨s.entries, s.window, s.fresh + 1 + 1⟩ := by
    rw [h3]
    simp only [offV2, hr2]
    rw [List.erase_append_right _ hm1]
    simp [List.erase_cons_head]
  exact ⟨by rw [hS], by rw [hS], by rw [h3], by rw [h3], by rw [h4], by rw [h4]⟩

/-- Witness for C8: from a fresh listener state, register callback 0 twice,
then unsubscribe twice — each `off` removes one registration with its
window wrapper, ending back at the empty state. -/
theorem c8_witness :
    (onV2 0 (onV2 0 (ListenerStateV2.mk [] [] 0))).entries = [(0, 0), (0, 1)] ∧
    (onV2 0 (onV2 0 (ListenerStateV2.mk [] [] 0))).window =
      [.wrapped 0 0, .wrapped 0 1] ∧
    (offV2 0 (onV2 0 (onV2 0 (ListenerStateV2.mk [] [] 0)))).entries = [(0, 1)] ∧
    (offV2 0 (onV2 0 (onV2 0 (ListenerStateV2.mk [] [] 0)))).window =
      [.wrapped 0 1] ∧
    (offV2 0 (offV2 0 (onV2 0 (onV2 0 (ListenerStateV2.mk [] [] 0))))).entries = [] ∧
    (offV2 0 (offV2 0 (onV2 0 (onV2 0 (ListenerStateV2.mk [] [] 0))))).window = [] := by
  exact c8_unsubscribe ⟨[], [], 0⟩ 0 (by decide) (by decide)

end Pewpi
